import Mathlib

/-!
Shallow embedding of the steelcut command-execution and host-abstraction layer
(Go sources: `steelcut/package_manager.go`, `steelcut/host.go`, and the main
host/dispatcher file), together with theorems settling the specification
claims.  External effects (process spawns, SSH dials, the filesystem, the
key agent) are abstracted as explicit environment records of their outcomes;
all control flow, string processing, and error classification is translated
directly from the Go source.
-/

namespace Steelcut

/-! ### String helpers mirroring the Go standard library

`fields` is `strings.Fields` (split around runs of whitespace, dropping empty
pieces); `splitOnChar` is `strings.Split` with a one-character separator
(keeps empty pieces, never returns an empty list); `strContains` is
`strings.Contains`; `trimString` is `strings.TrimSpace`.  All are structural
recursions over the character list so that concrete inputs evaluate inside
the kernel. -/

def fieldsAux : List Char → List Char → List String
  | [], cur => if cur.isEmpty then [] else [String.mk cur.reverse]
  | c :: rest, cur =>
    if c.isWhitespace then
      if cur.isEmpty then fieldsAux rest []
      else String.mk cur.reverse :: fieldsAux rest []
    else fieldsAux rest (c :: cur)

def fields (s : String) : List String :=
  fieldsAux s.toList []

def splitOnCharAux (sep : Char) : List Char → List Char → List String
  | [], cur => [String.mk cur.reverse]
  | c :: rest, cur =>
    if c = sep then String.mk cur.reverse :: splitOnCharAux sep rest []
    else splitOnCharAux sep rest (c :: cur)

def splitOnChar (sep : Char) (s : String) : List String :=
  splitOnCharAux sep s.toList []

def headMatch : List Char → List Char → Bool
  | [], _ => true
  | _ :: _, [] => false
  | a :: as, b :: bs => a = b && headMatch as bs

def containsList (needle : List Char) : List Char → Bool
  | [] => needle.isEmpty
  | c :: rest => headMatch needle (c :: rest) || containsList needle rest

def strContains (s sub : String) : Bool :=
  containsList sub.toList s.toList

def trimString (s : String) : String :=
  String.mk (((s.toList.dropWhile Char.isWhitespace).reverse.dropWhile
    Char.isWhitespace).reverse)

/-! ### Outcome types -/

/-- Result of an external command execution primitive: the combined textual
output on success, or an error message. -/
inductive ExecResult
  | ok (out : String)
  | err (msg : String)
  deriving Repr, DecidableEq

/-- Option record passed per call (`CommandOptions` in the source). -/
structure CommandOptions where
  useSudo : Bool := false
  sudoPassword : String := ""
  deriving Repr, DecidableEq

/-- A parsed package-update record (`Update` in `package_manager.go`). -/
structure Update where
  packageName : String
  version : String
  deriving Repr, DecidableEq

/-! ### Package-manager drivers (`package_manager.go`)

The executor the drivers call through is abstracted as a function from the
command text and its options to an `ExecResult`.  Driver operations return,
besides their result, the trace of executor invocations they issued, so that
theorems can speak about which shell commands ran and with which escalation
flag. -/

abbrev Executor := String → CommandOptions → ExecResult

/-- Embeds `AptPackageManager.parseAptUpdates`: split the output on newlines,
split each line on whitespace, skip the line unless it has at least five
fields and its field of index 4 equals `"[upgradable"`; otherwise record the
part of field 0 before the first slash as the name and field 1 as the
version. -/
def parseAptUpdates (output : String) : List Update :=
  (splitOnChar '\n' output).filterMap fun line =>
    match fields line with
    | p0 :: p1 :: _ :: _ :: p4 :: _ =>
      if p4 = "[upgradable" then
        some { packageName := (splitOnChar '/' p0).headD "", version := p1 }
      else none
    | _ => none

/-- The parser the source documents in its own example comment (and the spec
describes): same as `parseAptUpdates` except that the `"[upgradable"` marker
is looked for at field index 3, where it actually sits in a line of the form
`name/codename version arch [upgradable from: old]`. -/
def parseAptUpdatesIntended (output : String) : List Update :=
  (splitOnChar '\n' output).filterMap fun line =>
    match fields line with
    | p0 :: p1 :: _ :: p3 :: _ :: _ =>
      if p3 = "[upgradable" then
        some { packageName := (splitOnChar '/' p0).headD "", version := p1 }
      else none
    | _ => none

/-- Embeds `BrewPackageManager.parseUpdates`: split lines, split each line on
single spaces, skip lines with fewer than two pieces, else take piece 0 as
name and piece 1 as version. -/
def parseBrewUpdates (output : String) : List Update :=
  (splitOnChar '\n' output).filterMap fun line =>
    match splitOnChar ' ' line with
    | p0 :: p1 :: _ => some { packageName := p0, version := p1 }
    | _ => none

/-- Outcome of `AptPackageManager.CheckOSUpdates`.  `fatalExit` models
`log.Fatalf`, which terminates the whole process (it never returns); the
`return nil, fmt.Errorf(...)` statement that follows it in the source is
unreachable. -/
inductive CheckUpdatesResult
  | fatalExit (msg : String)
  | failure (msg : String)
  | success (lines : List String)
  deriving Repr, DecidableEq

/-- Embeds `AptPackageManager.CheckOSUpdates`: run `apt update` with
`UseSudo: true`; on error, `log.Fatalf` (process exit); otherwise run
`apt list --upgradable` without sudo and split its output on newlines.
Returns the trace of executor invocations alongside the outcome. -/
def AptCheckOSUpdates (exec : Executor) :
    List (String × CommandOptions) × CheckUpdatesResult :=
  let call1 := ("apt update", ({ useSudo := true } : CommandOptions))
  match exec "apt update" { useSudo := true } with
  | .err e => ([call1], .fatalExit ("Failed to update apt: " ++ e))
  | .ok _ =>
    let call2 := ("apt list --upgradable", ({ useSudo := false } : CommandOptions))
    match exec "apt list --upgradable" { useSudo := false } with
    | .err e => ([call1, call2], .failure e)
    | .ok out => ([call1, call2], .success (splitOnChar '\n' out))

/-- Embeds `BrewPackageManager.UpgradeAll`: a single `brew upgrade`
invocation with `UseSudo: false` (the source comment notes brew refuses to
run as root); on executor error the wrapped failure message is returned,
otherwise the output is parsed into update records. -/
def BrewUpgradeAll (exec : Executor) :
    List (String × CommandOptions) × Except String (List Update) :=
  let call := ("brew upgrade", ({ useSudo := false } : CommandOptions))
  match exec "brew upgrade" { useSudo := false } with
  | .err e =>
    ([call], .error ("failed to upgrade all packages: " ++ e ++ ", Output: "))
  | .ok out => ([call], .ok (parseBrewUpdates out))

/-! ### Host data model

The `UnixHost` record as used by the main host file: it stores the host
string (address), user, optional password, optional key passphrase, OS
string, and escalation (sudo) password.  The struct declaration with this
field set is not among the provided files (only an older variant is), so the
fields follow the main file's usage and the spec's data model.  The
`SSHClient` pointer is modelled as a flag recording whether it is non-nil;
the executor is passed explicitly where needed. -/

structure UnixHost where
  hostString : String := ""
  user : String := ""
  password : String := ""
  keyPassphrase : String := ""
  os : String := ""
  sudoPassword : String := ""
  sshClientInit : Bool := false
  deriving Repr, DecidableEq

/-- The `Hostname()` accessor (its declaration is not among the provided
files): it returns the stored host string, as forced by `NewHost` storing
the constructor argument in `HostString` and by the spec's identity field. -/
def UnixHost.hostname (h : UnixHost) : String :=
  h.hostString

/-- Embeds `UnixHost.isLocal`: the host is the loopback alias. -/
def UnixHost.isLocal (h : UnixHost) : Bool :=
  h.hostname == "localhost" || h.hostname == "127.0.0.1"

/-! ### SSH configuration (`getSSHConfig`) -/

inductive KeyManagerKind
  | file
  | agent
  deriving Repr, DecidableEq

/-- Outcomes of `ReadPrivateKeys` for each key-manager kind (the keys
themselves are abstract; only success or failure matters). -/
structure KeyEnv where
  fileKeys : Except String Unit := .ok ()
  agentKeys : Except String Unit := .ok ()
  deriving Repr

def readPrivateKeys : KeyManagerKind → KeyEnv → Except String Unit
  | .file, env => env.fileKeys
  | .agent, env => env.agentKeys

/-- One `ssh.AuthMethod` value: either password authentication carrying the
password, or a public-key callback backed by one of the two key managers. -/
inductive AuthMethod
  | password (secret : String)
  | publicKeys (km : KeyManagerKind)
  deriving Repr, DecidableEq

/-- The `ssh.ClientConfig` the source builds: user, the `Auth` list, and the
(insecure, accept-anything) host-key policy. -/
structure SSHClientConfig where
  user : String
  auth : List AuthMethod
  insecureIgnoreHostKey : Bool
  deriving Repr, DecidableEq

/-- Embeds `UnixHost.getSSHConfig`: a non-empty password selects password
authentication; otherwise a non-empty key passphrase selects the file key
manager and an empty one the agent key manager; a key-read failure is
returned as an error; the `Auth` list always holds exactly the one method
built. -/
def getSSHConfig (h : UnixHost) (env : KeyEnv) : Except String SSHClientConfig :=
  if h.password ≠ "" then
    .ok { user := h.user, auth := [.password h.password], insecureIgnoreHostKey := true }
  else
    let km : KeyManagerKind := if h.keyPassphrase ≠ "" then .file else .agent
    match readPrivateKeys km env with
    | .error e => .error e
    | .ok _ =>
      .ok { user := h.user, auth := [.publicKeys km], insecureIgnoreHostKey := true }

def isOkE {ε α : Type} : Except ε α → Bool
  | .ok _ => true
  | .error _ => false

/-! ### Execution dispatcher (`RunCommand` and its helpers)

The external world of one `RunCommand` call is collected in `ExecEnv`: the
local process results, the key-manager results, and, for the remote path,
the dial/session outcomes, the collected combined output, and the time (in
seconds) at which the collecting goroutine would deliver it. -/

/-- Named classification of the errors a `RunCommand` call can produce; each
constructor corresponds to one `errors.New`/error-return site in the
source. -/
inductive CmdError
  | incorrectSudoPassword
  | notInSudoers
  | timeoutError
  | sshClientNil
  | keyReadError (msg : String)
  | dialError (msg : String)
  | sessionError (msg : String)
  | execError (msg : String)
  deriving Repr, DecidableEq

structure ExecEnv where
  /-- `CombinedOutput` text of the local sudo-with-password branch. -/
  localSudoOut : String := ""
  /-- error of that `CombinedOutput` call, if any. -/
  localSudoErr : Option String := none
  /-- result of `Output()` in the plain local branch. -/
  localPlain : ExecResult := .ok ""
  keyEnv : KeyEnv := {}
  dialResult : Except String Unit := .ok ()
  sessionResult : Except String Unit := .ok ()
  /-- result of `session.CombinedOutput` once it completes. -/
  remoteOutcome : ExecResult := .ok ""
  /-- seconds until the output-collecting goroutine completes. -/
  remoteCompletionTime : Nat := 0
  deriving Repr

/-- Embeds `UnixHost.runLocalCommand`.  The result pair mirrors Go's
`(string, error)` return; the outer `Option` is `none` exactly when the
source would index `parts[0]` of an empty `strings.Fields` result, an
out-of-bounds access (runtime panic) with no defined value.  In the
sudo-with-password branch the combined output is scanned for the two sudo
failure phrases before the exit status is consulted. -/
def runLocalCommand (cmd : String) (useSudo : Bool) (sudoPassword : String)
    (env : ExecEnv) : Option (String × Option CmdError) :=
  match fields cmd with
  | [] => none
  | _ :: _ =>
    if useSudo = true ∧ sudoPassword ≠ "" then
      let outputStr := env.localSudoOut
      if strContains outputStr "incorrect password" then
        some ("", some .incorrectSudoPassword)
      else if strContains outputStr "is not in the sudoers file" then
        some ("", some .notInSudoers)
      else
        match env.localSudoErr with
        | some e => some ("", some (.execError e))
        | none => some (outputStr, none)
    else
      match env.localPlain with
      | .err e => some ("", some (.execError e))
      | .ok out => some (out, none)

/-- The run timeout of the remote path: a source-level constant of 5
seconds. -/
def remoteTimeout : Nat := 5

/-- Winner of the `select` race between the output channel, the error
channel, and `time.After(timeout)`, each carrying the time at which it
resolves. -/
inductive RaceWinner
  | outputReady (out : String) (t : Nat)
  | errReady (msg : String) (t : Nat)
  | timerFired (t : Nat)
  deriving Repr, DecidableEq

/-- The race semantics: the goroutine's result wins when it completes no
later than the deadline, otherwise the timer fires at the deadline.  (At an
exact tie Go's select picks nondeterministically; the model lets the
goroutine win there, which no theorem below depends on.) -/
def selectRace (completionTime : Nat) (outcome : ExecResult) : RaceWinner :=
  if completionTime ≤ remoteTimeout then
    match outcome with
    | .ok out => .outputReady out completionTime
    | .err e => .errReady e completionTime
  else .timerFired remoteTimeout

def RaceWinner.time : RaceWinner → Nat
  | .outputReady _ t => t
  | .errReady _ t => t
  | .timerFired t => t

/-- Embeds `UnixHost.runRemoteCommand`: nil-client check, SSH config build,
dial, session open, then the timeout race; a successfully collected output
is scanned for the two sudo failure phrases (whatever the escalation
options were); on timeout the call returns the empty string and the timeout
error, discarding any late output.  (The stdin password write when
escalating has no observable effect in this model and is omitted.) -/
def runRemoteCommand (h : UnixHost) (cmd : String) (useSudo : Bool)
    (sudoPassword : String) (env : ExecEnv) : String × Option CmdError :=
  if h.sshClientInit = false then ("", some .sshClientNil)
  else
    match getSSHConfig h env.keyEnv with
    | .error e => ("", some (.keyReadError e))
    | .ok _ =>
      match env.dialResult with
      | .error e => ("", some (.dialError e))
      | .ok _ =>
        match env.sessionResult with
        | .error e => ("", some (.sessionError e))
        | .ok _ =>
          match selectRace env.remoteCompletionTime env.remoteOutcome with
          | .outputReady out _ =>
            if strContains out "incorrect password" then
              ("", some .incorrectSudoPassword)
            else if strContains out "is not in the sudoers file" then
              ("", some .notInSudoers)
            else (out, none)
          | .errReady e _ => ("", some (.execError e))
          | .timerFired _ => ("", some .timeoutError)

/-- Embeds `UnixHost.runCommandInternal`: when escalation is requested the
command is prefixed with `sudo -S ` and the effective sudo password is the
host's stored one; the loopback aliases run locally, everything else
remotely. -/
def runCommandInternal (h : UnixHost) (cmd : String) (useSudo : Bool)
    (sudoPassword : String) (env : ExecEnv) : Option (String × Option CmdError) :=
  let cmd' := if useSudo then "sudo -S " ++ cmd else cmd
  let sudoPassword' := if useSudo then h.sudoPassword else sudoPassword
  if h.isLocal then runLocalCommand cmd' useSudo sudoPassword' env
  else some (runRemoteCommand h cmd' useSudo sudoPassword' env)

/-- Embeds `UnixHost.RunCommand`: unpacks the options and delegates. -/
def RunCommand (h : UnixHost) (cmd : String) (opts : CommandOptions)
    (env : ExecEnv) : Option (String × Option CmdError) :=
  runCommandInternal h cmd opts.useSudo opts.sudoPassword env

/-! ### Reachability probe (`IsReachable`, `ping`, `sshable`) -/

/-- A network operation the probe can perform, recorded in an operation
trace so that theorems can state that no network I/O happened. -/
inductive NetOp
  | pingCmd (cmd : String)
  | dialSSH (addr : String)
  deriving Repr, DecidableEq

structure ReachEnv where
  /-- result of `exec.Command("bash", "-c", "ping -c 1 <host>")`. -/
  pingResult : ExecResult := .ok ""
  keyEnv : KeyEnv := {}
  dialResult : Except String Unit := .ok ()
  deriving Repr

/-- The probe's errors; each constructor corresponds to one error-creation
site in the source (`"ping test failed: ..."`, the raw key-read error from
`getSSHConfig`, `"SSH test failed: ..."`). -/
inductive ReachError
  | pingFailed (msg : String)
  | configFailed (msg : String)
  | sshFailed (msg : String)
  deriving Repr, DecidableEq

/-- Embeds `UnixHost.ping`: one ping subprocess; a failure becomes the
wrapped ping error. -/
def pingCheck (env : ReachEnv) : Option ReachError :=
  match env.pingResult with
  | .ok _ => none
  | .err e => some (.pingFailed ("ping test failed: " ++ e))

/-- Embeds `UnixHost.sshable`: local hosts pass trivially; otherwise build
the SSH config (a failure is returned as-is, before any dial), then dial and
immediately close.  The first component is the trace of network operations;
the outer `Option` is `none` when the source would dial through a nil
`SSHClient` (a runtime panic). -/
def sshable (h : UnixHost) (env : ReachEnv) :
    Option (List NetOp × Option ReachError) :=
  if h.isLocal then some ([], none)
  else
    match getSSHConfig h env.keyEnv with
    | .error e => some ([], some (.configFailed e))
    | .ok _ =>
      if h.sshClientInit = false then none
      else
        match env.dialResult with
        | .error e =>
          some ([.dialSSH (h.hostname ++ ":22")],
            some (.sshFailed ("SSH test failed: " ++ e)))
        | .ok _ => some ([.dialSSH (h.hostname ++ ":22")], none)

/-- Embeds `UnixHost.IsReachable`: local hosts are reachable with no I/O at
all; otherwise the ping phase runs first and short-circuits on failure, then
the SSH phase. -/
def IsReachable (h : UnixHost) (env : ReachEnv) :
    Option (List NetOp × Option ReachError) :=
  if h.isLocal then some ([], none)
  else
    match pingCheck env with
    | some e => some ([.pingCmd ("ping -c 1 " ++ h.hostname)], some e)
    | none =>
      (sshable h env).map fun r =>
        (NetOp.pingCmd ("ping -c 1 " ++ h.hostname) :: r.1, r.2)

/-- The ping phase succeeded. -/
def pingOkB (env : ReachEnv) : Bool :=
  match env.pingResult with
  | .ok _ => true
  | .err _ => false

/-- The dial of the SSH phase succeeded. -/
def dialOkB (env : ReachEnv) : Bool :=
  match env.dialResult with
  | .ok _ => true
  | .error _ => false

/-- The whole SSH phase (config build, dial and close) succeeded. -/
def sshPhaseOk (h : UnixHost) (env : ReachEnv) : Bool :=
  isOkE (getSSHConfig h env.keyEnv) && dialOkB env

/-! ### File transfer (`CopyFile`) -/

/-- A file or network operation `CopyFile` can perform, recorded in an
operation trace. -/
inductive CopyOp
  | openLocal (path : String)
  | dialSSH (addr : String)
  | newSession
  | scpRun (cmd : String)
  deriving Repr, DecidableEq

structure CopyEnv where
  /-- outcome of `os.Open` + `Stat` on the local file: its size, or the
  first error of the two steps. -/
  openStat : Except String Nat := .ok 0
  keyEnv : KeyEnv := {}
  dialResult : Except String Unit := .ok ()
  sessionResult : Except String Unit := .ok ()
  /-- outcome of `session.Run("scp -t <remotePath>")` combined with the
  concurrent protocol write. -/
  runResult : Except String Unit := .ok ()
  deriving Repr

/-- Embeds `UnixHost.CopyFile`: a local (same-host) target is refused
immediately, before any file or network activity; otherwise open/stat the
local file, build the SSH config, dial, open a session, and run the scp
receiver while the control line and file bytes are written.  The first
component traces the operations performed; the outer `Option` is `none` for
the nil-`SSHClient` dial (runtime panic). -/
def CopyFile (h : UnixHost) (localPath remotePath : String) (env : CopyEnv) :
    Option (List CopyOp × Option String) :=
  if h.isLocal then some ([], some "source and destination are the same host")
  else
    match env.openStat with
    | .error e => some ([.openLocal localPath], some e)
    | .ok _ =>
      match getSSHConfig h env.keyEnv with
      | .error e => some ([.openLocal localPath], some e)
      | .ok _ =>
        if h.sshClientInit = false then none
        else
          match env.dialResult with
          | .error e =>
            some ([.openLocal localPath, .dialSSH (h.hostname ++ ":22")], some e)
          | .ok _ =>
            match env.sessionResult with
            | .error e =>
              some ([.openLocal localPath, .dialSSH (h.hostname ++ ":22"),
                .newSession], some e)
            | .ok _ =>
              match env.runResult with
              | .error e =>
                some ([.openLocal localPath, .dialSSH (h.hostname ++ ":22"),
                  .newSession, .scpRun ("scp -t " ++ remotePath)], some e)
              | .ok _ =>
                some ([.openLocal localPath, .dialSSH (h.hostname ++ ":22"),
                  .newSession, .scpRun ("scp -t " ++ remotePath)], none)

/-! ### Host construction (`NewHost`, `determineOS` and the options) -/

def HostOption := UnixHost → UnixHost

def withUser (u : String) : HostOption := fun h => { h with user := u }

def withPassword (p : String) : HostOption := fun h => { h with password := p }

def withKeyPassphrase (kp : String) : HostOption :=
  fun h => { h with keyPassphrase := kp }

def withOS (o : String) : HostOption := fun h => { h with os := o }

def withSudoPassword (p : String) : HostOption :=
  fun h => { h with sudoPassword := p }

def withSSHClient : HostOption := fun h => { h with sshClientInit := true }

structure NewHostEnv where
  /-- outcome of `user.Current()`: the current username. -/
  currentUser : Except String String := .ok "root"
  /-- outcome of the `uname` probe issued through `RunCommand`. -/
  unameResult : ExecResult := .ok ""
  /-- output of `cat /etc/os-release` (its error is discarded by the
  source). -/
  osRelease : String := ""
  deriving Repr

inductive PMKind
  | apt
  | yum
  | brew
  deriving Repr, DecidableEq

/-- The fully configured host value `NewHost` returns: the resolved
`UnixHost` together with the concrete variant and its package-manager
driver. -/
inductive BuiltHost
  | linuxHost (h : UnixHost) (pm : PMKind)
  | macHost (h : UnixHost) (pm : PMKind)
  deriving Repr, DecidableEq

/-- The first half of `NewHost`: build the record from the options, resolve
the user via `user.Current()` when unset, and resolve the OS via the
`uname` probe (`determineOS`, which trims the probe output) when unset. -/
def resolveHost (hostname : String) (options : List HostOption)
    (env : NewHostEnv) : Except String UnixHost :=
  let h1 := options.foldl (fun h o => o h) { hostString := hostname }
  let stepUser : Except String UnixHost :=
    if h1.user = "" then
      match env.currentUser with
      | .error e => .error ("could not get current user: " ++ e)
      | .ok u => .ok { h1 with user := u }
    else .ok h1
  match stepUser with
  | .error e => .error e
  | .ok h2 =>
    if h2.os = "" then
      match env.unameResult with
      | .err e => .error e
      | .ok out => .ok { h2 with os := trimString out }
    else .ok h2

/-- Embeds `NewHost`: after resolution, `"Linux"` selects the apt driver
when `/etc/os-release` names ubuntu or debian and the yum driver otherwise,
`"Darwin"` selects the brew driver, and any other OS string is a
construction failure that returns no host value at all. -/
def NewHost (hostname : String) (options : List HostOption)
    (env : NewHostEnv) : Except String BuiltHost :=
  match resolveHost hostname options env with
  | .error e => .error e
  | .ok h =>
    if h.os = "Linux" then
      if strContains env.osRelease "ID=ubuntu"
          || strContains env.osRelease "ID=debian" then
        .ok (.linuxHost h .apt)
      else .ok (.linuxHost h .yum)
    else if h.os = "Darwin" then .ok (.macHost h .brew)
    else .error ("unsupported operating system: " ++ h.os)

/-! ### Helper lemmas -/

lemma fieldsAux_cons_not_ws (c : Char) (rest cur : List Char)
    (hw : c.isWhitespace = false) :
    fieldsAux (c :: rest) cur = fieldsAux rest (c :: cur) := by
  simp [fieldsAux, hw]

lemma fieldsAux_ne_nil (cs : List Char) :
    ∀ cur : List Char, cur ≠ [] → fieldsAux cs cur ≠ [] := by
  induction cs with
  | nil =>
    intro cur h
    simp [fieldsAux, h]
  | cons c rest ih =>
    intro cur h
    by_cases hw : c.isWhitespace
    · simp [fieldsAux, hw, h]
    · rw [fieldsAux_cons_not_ws c rest cur (by simpa using hw)]
      exact ih (c :: cur) (by simp)

/-- Prefixing a command with `sudo -S ` always leaves at least one field. -/
lemma fields_sudo_ne_nil (cmd : String) : fields ("sudo -S " ++ cmd) ≠ [] := by
  have hdata : ("sudo -S " ++ cmd).toList
      = 's' :: 'u' :: 'd' :: 'o' :: ' ' :: '-' :: 'S' :: ' ' :: cmd.toList := by
    show ("sudo -S " ++ cmd).data = _
    rw [String.data_append]
    rfl
  unfold fields
  rw [hdata, fieldsAux_cons_not_ws _ _ _ (by decide)]
  exact fieldsAux_ne_nil _ ['s'] (by simp)

lemma fieldsAux_nil_of_ws (cs : List Char)
    (h : cs.all Char.isWhitespace = true) : fieldsAux cs [] = [] := by
  induction cs with
  | nil => simp [fieldsAux]
  | cons c rest ih =>
    simp only [List.all_cons, Bool.and_eq_true] at h
    simp [fieldsAux, h.1, ih h.2]

/-- A command made of whitespace only has no fields. -/
lemma fields_nil_of_whitespace (s : String)
    (h : s.toList.all Char.isWhitespace = true) : fields s = [] := by
  unfold fields
  exact fieldsAux_nil_of_ws s.toList h

/-! ### Claim theorems -/

/-- C1: on the documented Debian-family input line
`"foo/xenial 2.0.1 amd64 [upgradable from: 1.9.3]"` the source's parser
yields no record at all, because it tests field index 4 (which holds
`"from:"`) for the `"[upgradable"` marker that actually sits at index 3; the
index-3 variant the source's own example comment and the spec describe
yields exactly `Update{Name: "foo", Version: "2.0.1"}`.  On
`"not a valid line"` the parser yields no record and no error, as claimed. -/
theorem c1_apt_parser_on_documented_line :
    parseAptUpdates "foo/xenial 2.0.1 amd64 [upgradable from: 1.9.3]" = []
      ∧ parseAptUpdatesIntended "foo/xenial 2.0.1 amd64 [upgradable from: 1.9.3]"
          = [{ packageName := "foo", version := "2.0.1" }]
      ∧ parseAptUpdates "not a valid line" = [] := by
  exact ⟨by decide, by decide, by decide⟩

/-- C4: when the package-index refresh (`apt update`, run with sudo) fails,
`AptPackageManager.CheckOSUpdates` hits `log.Fatalf`, which terminates the
whole process: the outcome is a fatal exit, not an error returned to the
immediate caller, and the listing command is never issued (the invocation
trace holds only the refresh).  When the refresh succeeds, the refresh runs
first and the listing second. -/
theorem c4_apt_refresh_failure_is_fatal_exit :
    AptCheckOSUpdates
        (fun c _ => if c = "apt update" then .err "network unreachable" else .ok "")
      = ([("apt update", { useSudo := true, sudoPassword := "" })],
          .fatalExit "Failed to update apt: network unreachable")
      ∧ (AptCheckOSUpdates (fun _ _ => .ok "")).1
          = [("apt update", { useSudo := true, sudoPassword := "" }),
             ("apt list --upgradable", { useSudo := false, sudoPassword := "" })] := by
  exact ⟨by decide, by decide⟩

/-- C9: for every executor, `BrewPackageManager.UpgradeAll` issues exactly
one shell invocation, `brew upgrade`, and its escalation flag is false; the
operation exposes no caller-controlled escalation input at all, so no
request could turn it on. -/
theorem c9_brew_upgrade_all_never_sudo (exec : Executor) :
    (BrewUpgradeAll exec).1
      = [("brew upgrade", { useSudo := false, sudoPassword := "" })] := by
  rcases hE : exec "brew upgrade" ({ useSudo := false } : CommandOptions)
      with out | msg <;>
    simp [BrewUpgradeAll, hE]

/-- Witness for C9 at a concrete executor. -/
theorem c9_witness :
    (BrewUpgradeAll (fun _ _ => .ok "pkg 1.2")).1
      = [("brew upgrade", { useSudo := false, sudoPassword := "" })] :=
  c9_brew_upgrade_all_never_sudo (fun _ _ => .ok "pkg 1.2")

/-- C10: on a loopback host, `RunCommand` with a command string that is
empty or whitespace-only (and escalation not requested, so that no `sudo -S`
text is prepended) reaches `parts[0]` on the empty result of
`strings.Fields`, an out-of-bounds access with no defined result (modelled
as `none`) instead of an error return. -/
theorem c10_empty_local_command_undefined (h : UnixHost) (cmd pw : String)
    (env : ExecEnv) (hl : h.isLocal = true)
    (hws : cmd.toList.all Char.isWhitespace = true) :
    RunCommand h cmd { useSudo := false, sudoPassword := pw } env = none := by
  simp [RunCommand, runCommandInternal, hl, runLocalCommand,
    fields_nil_of_whitespace cmd hws]

/-- Witness for C10 at the host `localhost` and the empty command. -/
theorem c10_witness :
    RunCommand { hostString := "localhost" } ""
      { useSudo := false, sudoPassword := "" } {} = none :=
  c10_empty_local_command_undefined { hostString := "localhost" } "" "" {}
    (by decide) (by decide)

/-- C7: for every local path, remote path and environment, `CopyFile` on a
host whose address is the local host returns the same-host error
immediately, with an empty operation trace: no file is opened and no
network activity happens. -/
theorem c7_copy_to_self_is_error (h : UnixHost) (lp rp : String)
    (env : CopyEnv) (hl : h.isLocal = true) :
    CopyFile h lp rp env
      = some ([], some "source and destination are the same host") := by
  simp [CopyFile, hl]

/-- Witness for C7 at the host `127.0.0.1`. -/
theorem c7_witness :
    CopyFile { hostString := "127.0.0.1" } "/tmp/a" "/tmp/b" {}
      = some ([], some "source and destination are the same host") :=
  c7_copy_to_self_is_error { hostString := "127.0.0.1" } "/tmp/a" "/tmp/b" {}
    (by decide)

/-- C8: whenever the resolution phase of `NewHost` produces a host whose OS
string (explicitly supplied, or the trimmed `uname` probe output) is neither
`"Linux"` nor `"Darwin"`, construction fails with the
unsupported-operating-system error and returns no host value at all. -/
theorem c8_unsupported_os_is_construction_error (hostname : String)
    (options : List HostOption) (env : NewHostEnv) (h : UnixHost)
    (hres : resolveHost hostname options env = .ok h)
    (h1 : h.os ≠ "Linux") (h2 : h.os ≠ "Darwin") :
    NewHost hostname options env
        = .error ("unsupported operating system: " ++ h.os)
      ∧ ∀ bh : BuiltHost, NewHost hostname options env ≠ .ok bh := by
  have hmain : NewHost hostname options env
      = .error ("unsupported operating system: " ++ h.os) := by
    unfold NewHost
    rw [hres]
    simp [h1, h2]
  refine ⟨hmain, fun bh hcon => ?_⟩
  rw [hmain] at hcon
  exact Except.noConfusion hcon

/-- Witness for C8: constructing a host with an explicit OS `"FreeBSD"`
fails with the unsupported-operating-system error. -/
theorem c8_witness :
    NewHost "box" [withOS "FreeBSD"] {}
      = .error ("unsupported operating system: " ++ "FreeBSD") :=
  (c8_unsupported_os_is_construction_error "box" [withOS "FreeBSD"] {}
    { hostString := "box", user := "root", os := "FreeBSD" }
    rfl (by decide) (by decide)).1

/-- C5: every SSH client configuration `getSSHConfig` builds carries exactly
one authentication method: the password method (with the host's password)
whenever the password is non-empty, otherwise the public-key method backed
by the file key manager when a key passphrase is present and by the agent
key manager when it is absent.  The `Auth` list of length one admits no
fallback chaining. -/
theorem c5_exactly_one_auth_method (h : UnixHost) (env : KeyEnv)
    (cfg : SSHClientConfig) (hok : getSSHConfig h env = .ok cfg) :
    cfg.auth.length = 1
      ∧ (h.password ≠ "" → cfg.auth = [.password h.password])
      ∧ (h.password = "" → h.keyPassphrase ≠ "" →
          cfg.auth = [.publicKeys .file])
      ∧ (h.password = "" → h.keyPassphrase = "" →
          cfg.auth = [.publicKeys .agent]) := by
  by_cases hp : h.password = ""
  · by_cases hk : h.keyPassphrase = ""
    · rcases henv : env.agentKeys with e | u <;>
        simp [getSSHConfig, readPrivateKeys, hp, hk, henv] at hok
      subst hok
      simp [hp, hk]
    · rcases henv : env.fileKeys with e | u <;>
        simp [getSSHConfig, readPrivateKeys, hp, hk, henv] at hok
      subst hok
      simp [hp, hk]
  · simp [getSSHConfig, hp] at hok
    subst hok
    simp [hp]

/-- Witness for C5 at a host with a password. -/
theorem c5_witness :
    ({ user := "", auth := [AuthMethod.password "pw"],
        insecureIgnoreHostKey := true } : SSHClientConfig).auth.length = 1 :=
  (c5_exactly_one_auth_method { password := "pw" } {}
    { user := "", auth := [AuthMethod.password "pw"],
      insecureIgnoreHostKey := true } rfl).1

lemma exists_ok_of_isOkE {ε α : Type} {r : Except ε α} (h : isOkE r = true) :
    ∃ a, r = .ok a := by
  rcases r with e | a
  · simp [isOkE] at h
  · exact ⟨a, rfl⟩

/-- C6: a loopback host is reachable with an empty operation trace (no
network I/O at all); any other host (with a live SSH client value) is
reachable exactly when the ping phase and the SSH phase (config build, dial
and close) both succeed, a ping failure short-circuits to the dedicated
ping error, and the ping error is distinct from the SSH phase's error. -/
theorem c6_reachability (h : UnixHost) (env : ReachEnv) :
    (h.isLocal = true → IsReachable h env = some ([], none))
      ∧ (h.isLocal = false → h.sshClientInit = true →
          ((∃ ops, IsReachable h env = some (ops, none))
              ↔ (pingOkB env = true ∧ sshPhaseOk h env = true))
          ∧ (pingOkB env = false →
              ∃ msg, IsReachable h env
                = some ([.pingCmd ("ping -c 1 " ++ h.hostname)],
                    some (.pingFailed msg)))
          ∧ (∀ a b, ReachError.pingFailed a ≠ ReachError.sshFailed b)) := by
  constructor
  · intro hl
    simp [IsReachable, hl]
  · intro hl hinit
    refine ⟨?_, ?_, fun a b hab => ReachError.noConfusion hab⟩
    · rcases hping : env.pingResult with o | e
      · rcases hcfg : getSSHConfig h env.keyEnv with ce | cfg
        · simp [IsReachable, sshable, pingCheck, sshPhaseOk, isOkE, pingOkB,
            dialOkB, hl, hinit, hping, hcfg]
        · rcases hdial : env.dialResult with de | du
          · simp [IsReachable, sshable, pingCheck, sshPhaseOk, isOkE, pingOkB,
              dialOkB, hl, hinit, hping, hcfg, hdial]
          · simp [IsReachable, sshable, pingCheck, sshPhaseOk, isOkE, pingOkB,
              dialOkB, hl, hinit, hping, hcfg, hdial]
      · simp [IsReachable, pingCheck, pingOkB, hl, hping]
    · intro hpf
      rcases hping : env.pingResult with o | e
      · simp [pingOkB, hping] at hpf
      · exact ⟨"ping test failed: " ++ e,
          by simp [IsReachable, pingCheck, hl, hping]⟩

/-- Witness for C6: a loopback host with no environment at all, and a
remote host with password auth and successful ping and dial. -/
theorem c6_witness :
    IsReachable { hostString := "localhost" } {} = some ([], none)
      ∧ ∃ ops, IsReachable
          { hostString := "h1", password := "pw", sshClientInit := true } {}
        = some (ops, none) :=
  ⟨(c6_reachability { hostString := "localhost" } {}).1 rfl,
    (((c6_reachability
        { hostString := "h1", password := "pw", sshClientInit := true }
        {}).2 rfl rfl).1).mpr ⟨rfl, rfl⟩⟩

/-- C3: on the remote path, whenever the output-collecting goroutine would
complete only after the 5-second deadline, `RunCommand` returns the timeout
error with the empty output string — partial output is discarded and the
late result never returned — and the race resolves at the deadline, strictly
before the command's real completion time. -/
theorem c3_remote_timeout (h : UnixHost) (cmd : String) (opts : CommandOptions)
    (env : ExecEnv)
    (hrem : h.isLocal = false) (hinit : h.sshClientInit = true)
    (hcfg : isOkE (getSSHConfig h env.keyEnv) = true)
    (hdial : env.dialResult = .ok ())
    (hsess : env.sessionResult = .ok ())
    (hlate : remoteTimeout < env.remoteCompletionTime) :
    RunCommand h cmd opts env = some ("", some .timeoutError)
      ∧ (selectRace env.remoteCompletionTime env.remoteOutcome).time
          = remoteTimeout
      ∧ (selectRace env.remoteCompletionTime env.remoteOutcome).time
          < env.remoteCompletionTime := by
  have hrace : selectRace env.remoteCompletionTime env.remoteOutcome
      = .timerFired remoteTimeout := by
    unfold selectRace
    rw [if_neg (by omega)]
  obtain ⟨cfg, hc⟩ := exists_ok_of_isOkE hcfg
  refine ⟨?_, by rw [hrace]; rfl, by rw [hrace]; exact hlate⟩
  simp [RunCommand, runCommandInternal, hrem, runRemoteCommand, hinit, hc,
    hdial, hsess, hrace]

/-- Witness for C3: a 60-second command against the 5-second deadline. -/
theorem c3_witness :
    RunCommand { hostString := "server1", password := "pw", sshClientInit := true }
        "sleep 60" { useSudo := false, sudoPassword := "" }
        { remoteCompletionTime := 60 }
      = some ("", some CmdError.timeoutError) :=
  (c3_remote_timeout
    { hostString := "server1", password := "pw", sshClientInit := true }
    "sleep 60" { useSudo := false, sudoPassword := "" }
    { remoteCompletionTime := 60 } rfl rfl rfl rfl rfl (by decide)).1

/-- C2 counterexample: with escalation requested on a loopback host whose
stored sudo password is empty, output containing "incorrect password" is
returned as a plain success (no scan runs), and with a stored sudo password,
output containing the claim's phrase "not in the sudoers file" (but not the
source's longer phrase "is not in the sudoers file") is also returned as a
plain success — in both cases the claim's named error does not appear. -/
theorem c2_counterexample :
    RunCommand { hostString := "localhost", sudoPassword := "" } "ls"
        { useSudo := true, sudoPassword := "secret" }
        { localPlain := .ok "sudo: incorrect password attempt" }
      = some ("sudo: incorrect password attempt", none)
      ∧ strContains "sudo: incorrect password attempt" "incorrect password"
          = true
      ∧ RunCommand { hostString := "localhost", sudoPassword := "pw" } "ls"
          { useSudo := true, sudoPassword := "" }
          { localSudoOut := "root not in the sudoers file" }
        = some ("root not in the sudoers file", none)
      ∧ strContains "root not in the sudoers file" "not in the sudoers file"
          = true := by
  exact ⟨by decide, by decide, by decide, by decide⟩

/-- C2 (amended): the named-error scan converts output containing
"incorrect password" to `IncorrectSudoPassword` and output containing
"is not in the sudoers file" to `NotInSudoers`, but on the local path only
when escalation is requested and the host's stored sudo password is
non-empty, while on the remote path it applies to every output collected
without execution error, whether or not escalation was requested — the two
paths' scans are not identical. -/
theorem c2_sudo_error_scan :
    (∀ (h : UnixHost) (cmd pw : String) (env : ExecEnv),
        h.isLocal = true → h.sudoPassword ≠ "" →
        strContains env.localSudoOut "incorrect password" = true →
        RunCommand h cmd { useSudo := true, sudoPassword := pw } env
          = some ("", some .incorrectSudoPassword))
      ∧ (∀ (h : UnixHost) (cmd pw : String) (env : ExecEnv),
          h.isLocal = true → h.sudoPassword ≠ "" →
          strContains env.localSudoOut "incorrect password" = false →
          strContains env.localSudoOut "is not in the sudoers file" = true →
          RunCommand h cmd { useSudo := true, sudoPassword := pw } env
            = some ("", some .notInSudoers))
      ∧ (∀ (h : UnixHost) (cmd : String) (opts : CommandOptions)
            (env : ExecEnv) (out : String),
          h.isLocal = false → h.sshClientInit = true →
          isOkE (getSSHConfig h env.keyEnv) = true →
          env.dialResult = .ok () → env.sessionResult = .ok () →
          env.remoteCompletionTime ≤ remoteTimeout →
          env.remoteOutcome = .ok out →
          strContains out "incorrect password" = true →
          RunCommand h cmd opts env = some ("", some .incorrectSudoPassword))
      ∧ (∀ (h : UnixHost) (cmd : String) (opts : CommandOptions)
            (env : ExecEnv) (out : String),
          h.isLocal = false → h.sshClientInit = true →
          isOkE (getSSHConfig h env.keyEnv) = true →
          env.dialResult = .ok () → env.sessionResult = .ok () →
          env.remoteCompletionTime ≤ remoteTimeout →
          env.remoteOutcome = .ok out →
          strContains out "incorrect password" = false →
          strContains out "is not in the sudoers file" = true →
          RunCommand h cmd opts env = some ("", some .notInSudoers)) := by
  refine ⟨?_, ?_, ?_, ?_⟩
  · intro h cmd pw env hl hsp hout
    obtain ⟨a, l, hfl⟩ := List.exists_cons_of_ne_nil (fields_sudo_ne_nil cmd)
    simp [RunCommand, runCommandInternal, hl, runLocalCommand, hfl, hsp, hout]
  · intro h cmd pw env hl hsp hout1 hout2
    obtain ⟨a, l, hfl⟩ := List.exists_cons_of_ne_nil (fields_sudo_ne_nil cmd)
    simp [RunCommand, runCommandInternal, hl, runLocalCommand, hfl, hsp,
      hout1, hout2]
  · intro h cmd opts env out hl hinit hcfg hdial hsess htime houtc hscan
    obtain ⟨cfg, hc⟩ := exists_ok_of_isOkE hcfg
    have hrace : selectRace env.remoteCompletionTime env.remoteOutcome
        = .outputReady out env.remoteCompletionTime := by
      unfold selectRace
      rw [if_pos htime, houtc]
    simp [RunCommand, runCommandInternal, hl, runRemoteCommand, hinit, hc,
      hdial, hsess, hrace, hscan]
  · intro h cmd opts env out hl hinit hcfg hdial hsess htime houtc h1 h2
    obtain ⟨cfg, hc⟩ := exists_ok_of_isOkE hcfg
    have hrace : selectRace env.remoteCompletionTime env.remoteOutcome
        = .outputReady out env.remoteCompletionTime := by
      unfold selectRace
      rw [if_pos htime, houtc]
    simp [RunCommand, runCommandInternal, hl, runRemoteCommand, hinit, hc,
      hdial, hsess, hrace, h1, h2]

/-- Witness for the amended C2, exercising the local scan with a stored
sudo password. -/
theorem c2_witness :
    RunCommand { hostString := "localhost", sudoPassword := "pw" } "ls"
        { useSudo := true, sudoPassword := "" }
        { localSudoOut := "sudo: incorrect password attempt" }
      = some ("", some CmdError.incorrectSudoPassword) :=
  c2_sudo_error_scan.1 { hostString := "localhost", sudoPassword := "pw" }
    "ls" "" { localSudoOut := "sudo: incorrect password attempt" }
    (by decide) (by decide) (by decide)

end Steelcut
